import Mathlib

/-!
Shallow embedding of the Monte Carlo VaR kernel
(src/backend/risk_engines/monte_carlo.py) of the Quantitative-Risk-Platform
repository, together with theorems settling the frozen claims about it.

Modelling conventions:
* IEEE doubles are modelled as elements of an arbitrary linear ordered field
  so that every comparison and arithmetic step of the source is expressible
  exactly; theorems that need the transcendental functions instantiate the
  field with the reals.
* numpy's exp / log / sqrt are gathered in a FloatOps parameter, instantiated
  with Real.exp / Real.log / Real.sqrt over the reals.
* numpy's global random state (np.random.seed / np.random.normal) is modelled
  by an explicit state type S threaded through the computation, a draw
  function gen : S → α × S and a seeding function seedFn : ℕ → S.
* numpy's LAPACK-backed Cholesky/eigen decomposition (whose output feeds the
  correlated draw generation) is modelled by a parameter
  cholFn : List (List α) → List (List α): it is a deterministic function of
  the correlation matrix, which is all the settled claims depend on.
* Python exceptions are modelled with Except String; Python dicts that are
  iterated in insertion order are modelled as association lists.
-/

namespace RiskPlatform

/-- Abstract transcendental operations standing for numpy's exp, log and
sqrt on doubles; instantiated with Real.exp, Real.log, Real.sqrt when the
field of scalars is ℝ. -/
structure FloatOps (α : Type) where
  exp : α → α
  log : α → α
  sqrt : α → α

/-- The StochasticProcess enum of monte_carlo.py: supported stochastic
processes for simulation. -/
inductive StochasticProcess
  | geometric_brownian_motion
  | mean_reversion
  | jump_diffusion
deriving DecidableEq

/-- The AssetParameters dataclass: parameters for individual asset
simulation. -/
structure AssetParameters (α : Type) where
  symbol : String
  current_price : α
  expected_return : α
  volatility : α
  weight : α
deriving DecidableEq

/-- AssetParameters.__post_init__: raises ValueError when volatility is
negative or the weight is outside [0, 1]; otherwise the dataclass instance
is the validated parameters themselves. -/
def AssetParameters.post_init {α : Type} [LinearOrderedField α]
    (a : AssetParameters α) : Except String (AssetParameters α) :=
  if a.volatility < 0 then
    .error ("Volatility must be non-negative for " ++ a.symbol)
  else if ¬(0 ≤ a.weight ∧ a.weight ≤ 1) then
    .error ("Weight must be between 0 and 1 for " ++ a.symbol)
  else .ok a

/-- The SimulationConfig dataclass after __post_init__ has run: counts are
Python ints (ℤ), confidence levels are the float literals of the caller,
kept as exact rationals. -/
structure SimulationConfig where
  num_simulations : ℤ
  time_horizon : ℤ
  confidence_levels : List ℚ
  random_seed : Option ℕ
deriving DecidableEq

/-- SimulationConfig construction (field assignment plus __post_init__):
a missing confidence_levels list defaults to [0.95, 0.99, 0.999], then the
__post_init__ loop raises ValueError at the first confidence level cl with
not 0 < cl < 1.  No other field is inspected. -/
def SimulationConfig.post_init (num_simulations time_horizon : ℤ)
    (confidence_levels : Option (List ℚ)) (random_seed : Option ℕ) :
    Except String SimulationConfig :=
  let cls := confidence_levels.getD [19/20, 99/100, 999/1000]
  match cls.find? (fun cl => decide (¬(0 < cl ∧ cl < 1))) with
  | some _ => .error "Confidence level must be between 0 and 1"
  | none => .ok ⟨num_simulations, time_horizon, cls, random_seed⟩

/-- One stress-scenario modifier map (the Python dict value in
stress_scenarios): only the keys volatility_multiplier and return_shift are
ever read by stress_test, so the map is modelled by those two optional
entries; any other key is ignored by the code. -/
structure Modifications (α : Type) where
  volatility_multiplier : Option α
  return_shift : Option α
deriving DecidableEq

/-- The per-asset body of the stress_test modification loop: in source
order, multiply volatility by the volatility_multiplier entry when present,
then shift expected_return by the return_shift entry when present.  In
Python this mutates the AssetParameters object in place; here it returns
the object's new field values. -/
def applyModifications {α : Type} [LinearOrderedField α]
    (mods : Modifications α) (a : AssetParameters α) : AssetParameters α :=
  let a1 :=
    match mods.volatility_multiplier with
    | some m => { a with volatility := a.volatility * m }
    | none => a
  match mods.return_shift with
  | some s => { a1 with expected_return := a1.expected_return + s }
  | none => a1

/-- numpy.isclose with an explicit relative tolerance and the default
absolute tolerance 1e-8: |a − b| ≤ atol + rtol·|b|. -/
def npIsClose {α : Type} [LinearOrderedField α] (rtol : ℚ) (a b : α) : Bool :=
  decide (|a - b| ≤ (1 / 100000000 : ℚ) + (rtol : α) * |b|)

/-- numpy.eye n: the n × n identity matrix as a list of rows. -/
def npEye {α : Type} [LinearOrderedField α] (n : ℕ) : List (List α) :=
  (List.range n).map (fun i => (List.range n).map (fun j => if i = j then 1 else 0))

/-- Entry (i, j) of a list-of-rows matrix, defaulting to 0 out of range. -/
def mget {α : Type} [LinearOrderedField α] (m : List (List α)) (i j : ℕ) : α :=
  (m.getD i []).getD j 0

/-- MonteCarloVaR._validate_correlation_matrix.  The eigenvalue check
(np.any(np.linalg.eigvals(m) < -1e-8)) runs LAPACK numerical code with no
exact-arithmetic counterpart, so it is abstracted as the Boolean parameter
eigvalsOk; the shape, symmetry (np.allclose, rtol 1e-5) and unit-diagonal
checks are embedded exactly, in source order. -/
def validate_correlation_matrix {α : Type} [LinearOrderedField α]
    (eigvalsOk : List (List α) → Bool) (num_assets : ℕ) (m : List (List α)) :
    Except String Unit :=
  if (decide (m.length = num_assets) &&
      m.all (fun row => decide (row.length = num_assets))) = false then
    .error "Correlation matrix shape does not match number of assets"
  else if ((List.range num_assets).all (fun i => (List.range num_assets).all
      (fun j => npIsClose (1/100000) (mget m i j) (mget m j i)))) = false then
    .error "Correlation matrix must be symmetric"
  else if eigvalsOk m = false then
    .error "Correlation matrix must be positive semi-definite"
  else if ((List.range num_assets).all
      (fun i => npIsClose (1/100000) (mget m i i) 1)) = false then
    .error "Correlation matrix diagonal elements must be 1.0"
  else .ok ()

/-- The state of a MonteCarloVaR instance: the assets list, the asset
count, and the correlation matrix (None in both optional slots when the
calculator was built without an asset list). -/
structure MonteCarloVaR (α : Type) where
  assets : Option (List (AssetParameters α))
  num_assets : ℕ
  correlation_matrix : Option (List (List α))
deriving DecidableEq

/-- MonteCarloVaR.__init__.  With an asset list: validate the supplied
correlation matrix (or fall back to the identity), then check that the
weights sum to 1 within np.isclose(·, 1.0, rtol=1e-5).  Without an asset
list (assets omitted or None): set assets = None, num_assets = 0,
correlation_matrix = None and perform no validation at all. -/
def MonteCarloVaR.init {α : Type} [LinearOrderedField α]
    (eigvalsOk : List (List α) → Bool)
    (assets : Option (List (AssetParameters α)))
    (correlation_matrix : Option (List (List α))) :
    Except String (MonteCarloVaR α) :=
  match assets with
  | none => .ok ⟨none, 0, none⟩
  | some as =>
    let n := as.length
    let corrE : Except String (List (List α)) :=
      match correlation_matrix with
      | some m =>
        match validate_correlation_matrix eigvalsOk n m with
        | .error e => .error e
        | .ok _ => .ok m
      | none => .ok (npEye n)
    match corrE with
    | .error e => .error e
    | .ok corr =>
      let total := (as.map (fun a => a.weight)).sum
      if npIsClose (1/100000) total 1 then .ok ⟨some as, n, some corr⟩
      else .error "Portfolio weights must sum to 1.0"

/-- Draw n successive values from the generator, in draw order, returning
them with the final generator state (models n successive np.random.normal
samples taken from the global random state). -/
def drawN {α S : Type} (gen : S → α × S) : ℕ → S → List α × S
  | 0, st => ([], st)
  | n + 1, st =>
    let (x, st1) := gen st
    let (xs, st2) := drawN gen n st1
    (x :: xs, st2)

/-- Draw a rows × cols matrix row by row (C order, the order in which
np.random.normal fills a 2-d array). -/
def drawMatrix {α S : Type} (gen : S → α × S) : ℕ → ℕ → S → List (List α) × S
  | 0, _, st => ([], st)
  | r + 1, c, st =>
    let (row, st1) := drawN gen c st
    let (rest, st2) := drawMatrix gen r c st1
    (row :: rest, st2)

/-- Draw an a × b × c tensor in C order: np.random.normal(0, 1, (a, b, c)). -/
def drawTensor3 {α S : Type} (gen : S → α × S) :
    ℕ → ℕ → ℕ → S → List (List (List α)) × S
  | 0, _, _, st => ([], st)
  | a + 1, b, c, st =>
    let (m, st1) := drawMatrix gen b c st
    let (rest, st2) := drawTensor3 gen a b c st1
    (m :: rest, st2)

/-- Matrix–vector product chol_matrix @ v for a list-of-rows matrix. -/
def matVec {α : Type} [LinearOrderedField α] (m : List (List α)) (v : List α) :
    List α :=
  m.map (fun row => ((row.zip v).map (fun p => p.1 * p.2)).sum)

/-- Entry (i, j, k) of a list-of-lists-of-lists tensor, 0 out of range. -/
def tget {α : Type} [LinearOrderedField α] (x : List (List (List α)))
    (i j k : ℕ) : α :=
  ((x.getD i []).getD j []).getD k 0

/-- The correlation loop of _generate_correlated_randoms:
correlated[:, sim, t] = chol_matrix @ independent[:, sim, t]. -/
def correlate {α : Type} [LinearOrderedField α] (chol : List (List α))
    (ind : List (List (List α))) (num_assets num_sims horizon : ℕ) :
    List (List (List α)) :=
  (List.range num_assets).map (fun i =>
    (List.range num_sims).map (fun sim =>
      (List.range horizon).map (fun t =>
        (matVec chol ((List.range num_assets).map (fun j => tget ind j sim t))).getD i 0)))

/-- MonteCarloVaR._generate_correlated_randoms: derive a transform from
the correlation matrix (np.linalg.cholesky with the eigen-decomposition
fallback, abstracted as the deterministic cholFn), sample the independent
normal tensor from the generator, and apply the transform at every
(sim, t). -/
def generate_correlated_randoms {α S : Type} [LinearOrderedField α]
    (gen : S → α × S) (cholFn : List (List α) → List (List α))
    (corr : List (List α)) (num_assets num_sims horizon : ℕ) (st : S) :
    List (List (List α)) × S :=
  let chol := cholFn corr
  let pair := drawTensor3 gen num_assets num_sims horizon st
  (correlate chol pair.1 num_assets num_sims horizon, pair.2)

/-- MonteCarloVaR._simulate_gbm.  randoms is the sims × horizon matrix of
correlated draws for one asset; the last column of the row-wise cumulative
sum of the √dt-scaled draws is the row total, so each path's terminal
price is price · exp(drift·(horizon·dt) + σ·Σ_t randoms[t]·√dt), drift
being μ − σ²/2, and the output is the per-path simple return.  (For
horizon = 0 the source's [:, -1] indexing would fail in numpy; the
embedding returns the empty-sum value instead, and every theorem that
uses this definition assumes a positive horizon.) -/
def simulate_gbm {α : Type} [LinearOrderedField α] (ops : FloatOps α)
    (asset : AssetParameters α) (randoms : List (List α)) (dt : α)
    (time_horizon : ℕ) : List α :=
  let drift := asset.expected_return - (1 / 2) * asset.volatility ^ 2
  randoms.map (fun path =>
    let wT := (path.map (fun r => r * ops.sqrt dt)).sum
    let final_price := asset.current_price *
      ops.exp (drift * ((time_horizon : α) * dt) + asset.volatility * wT)
    (final_price - asset.current_price) / asset.current_price)

/-- MonteCarloVaR._simulate_mean_reversion: Ornstein-Uhlenbeck on the
log-price with the fixed reversion speed θ = 0.5, stepped over each of the
time_horizon discrete steps. -/
def simulate_mean_reversion {α : Type} [LinearOrderedField α]
    (ops : FloatOps α) (asset : AssetParameters α) (randoms : List (List α))
    (dt : α) (time_horizon : ℕ) : List α :=
  randoms.map (fun path =>
    let final_price := (List.range time_horizon).foldl (fun price t =>
      let log_price := ops.log price
      let d_log_price :=
        (1 / 2) * (ops.log asset.current_price + asset.expected_return - log_price) * dt
          + asset.volatility * (path.getD t 0) * ops.sqrt dt
      price * ops.exp d_log_price) asset.current_price
    (final_price - asset.current_price) / asset.current_price)

/-- The asset loop of simulate_portfolio_returns: per asset, dispatch on
the process (GBM, mean reversion, or raise NotImplementedError for
anything else, which therefore fires on the first asset) and accumulate
the weighted per-path returns into the running portfolio vector. -/
def portfolio_loop {α : Type} [LinearOrderedField α] (ops : FloatOps α)
    (dt : α) (time_horizon : ℕ) (process : StochasticProcess)
    (randoms : List (List (List α))) :
    List (AssetParameters α) → ℕ → List α → Except String (List α)
  | [], _, acc => .ok acc
  | asset :: rest, i, acc =>
    match process with
    | .geometric_brownian_motion =>
      let asset_returns := simulate_gbm ops asset (randoms.getD i []) dt time_horizon
      portfolio_loop ops dt time_horizon process randoms rest (i + 1)
        (acc.zipWith (fun p r => p + asset.weight * r) asset_returns)
    | .mean_reversion =>
      let asset_returns := simulate_mean_reversion ops asset (randoms.getD i []) dt time_horizon
      portfolio_loop ops dt time_horizon process randoms rest (i + 1)
        (acc.zipWith (fun p r => p + asset.weight * r) asset_returns)
    | .jump_diffusion =>
      .error "Process StochasticProcess.JUMP_DIFFUSION not implemented"

/-- MonteCarloVaR.simulate_portfolio_returns: reseed the global generator
when config.random_seed is set (np.random.seed), set dt = 1/time_horizon,
generate the correlated draw tensor, then run the asset loop starting
from the zero portfolio vector.  Returns the simulated portfolio returns
(or the raised error) together with the final generator state. -/
def simulate_portfolio_returns {α S : Type} [LinearOrderedField α]
    (ops : FloatOps α) (gen : S → α × S) (seedFn : ℕ → S)
    (cholFn : List (List α) → List (List α))
    (assets : List (AssetParameters α)) (corr : List (List α))
    (config : SimulationConfig) (process : StochasticProcess) (st : S) :
    Except String (List α) × S :=
  let st0 := match config.random_seed with
    | some s => seedFn s
    | none => st
  let dt : α := 1 / (config.time_horizon : α)
  let num_sims := config.num_simulations.toNat
  let horizon := config.time_horizon.toNat
  let pair :=
    generate_correlated_randoms gen cholFn corr assets.length num_sims horizon st0
  (portfolio_loop ops dt horizon process pair.1 assets 0 (List.replicate num_sims 0), pair.2)

/-- Linear interpolation kernel of np.percentile: given the sorted sample
s and the virtual index pos = q/100·(n−1), interpolate between s[⌊pos⌋]
and the following element (which np.percentile addresses as s[⌈pos⌉]; when
the fractional part is 0 the second element is multiplied by 0, so
defaulting it to the first is the same value). -/
def interpAt {α : Type} [LinearOrderedField α] (s : List α) (pos : ℚ) : α :=
  let lo := (Int.floor pos).toNat
  let frac : ℚ := pos - Int.floor pos
  let a := s.getD lo 0
  let b := s.getD (lo + 1) a
  a + (frac : α) * (b - a)

/-- np.percentile(data, q) with the default linear interpolation: sort
the sample, then interpolate at the virtual index q/100·(n−1). -/
def npPercentile {α : Type} [LinearOrderedField α] (data : List α) (q : ℚ) : α :=
  interpAt data.mergeSort ((q / 100) * ((data.length - 1 : ℕ) : ℚ))

/-- np.mean of a sample: sum divided by length. -/
def npMean {α : Type} [LinearOrderedField α] (data : List α) : α :=
  data.sum / (data.length : α)

/-- The VaR body of the confidence-level loop in calculate_var: VaR at
confidence level c is the negated (1−c)·100-th percentile of the
simulated portfolio returns. -/
def varAt {α : Type} [LinearOrderedField α] (data : List α) (c : ℚ) : α :=
  -(npPercentile data ((1 - c) * 100))

/-- The CVaR body of the confidence-level loop in calculate_var: the
negated mean of the returns at or below −VaR, falling back to the VaR
value itself when that tail is empty. -/
def cvarAt {α : Type} [LinearOrderedField α] (data : List α) (c : ℚ) : α :=
  let var_value := varAt data c
  let tail_returns := data.filter (fun r => decide (r ≤ -var_value))
  if tail_returns.length > 0 then -(npMean tail_returns) else var_value

/-- np.min of a nonempty sample (0 for the empty sample, which the source
never feeds it). -/
def listMin {α : Type} [LinearOrderedField α] : List α → α
  | [] => 0
  | x :: xs => xs.foldl min x

/-- np.max of a nonempty sample (0 for the empty sample, which the source
never feeds it). -/
def listMax {α : Type} [LinearOrderedField α] : List α → α
  | [] => 0
  | x :: xs => xs.foldl max x

/-- The statistics dict built by calculate_var. -/
structure Statistics (α : Type) where
  mean_return : α
  std_return : α
  skewness : α
  kurtosis : α
  min_return : α
  max_return : α
  num_simulations : ℤ
deriving DecidableEq

/-- k-th central moment of the sample, the building block of np.std and
the scipy skewness/kurtosis estimators. -/
def moment {α : Type} [LinearOrderedField α] (data : List α) (k : ℕ) : α :=
  npMean (data.map (fun x => (x - npMean data) ^ k))

/-- The summary statistics of calculate_var: np.mean, population np.std
(square root of the second central moment), scipy's biased skewness
m₃/m₂^(3/2), scipy's excess kurtosis m₄/m₂² − 3, min, max, and the
configured simulation count. -/
def statisticsOf {α : Type} [LinearOrderedField α] (ops : FloatOps α)
    (data : List α) (num_simulations : ℤ) : Statistics α :=
  { mean_return := npMean data
    std_return := ops.sqrt (moment data 2)
    skewness := moment data 3 / (moment data 2 * ops.sqrt (moment data 2))
    kurtosis := moment data 4 / (moment data 2) ^ 2 - 3
    min_return := listMin data
    max_return := listMax data
    num_simulations := num_simulations }

/-- The VaRResults dataclass: per-confidence-level VaR, CVaR and source
percentile (as association lists in confidence-level order), the raw
simulated portfolio returns, and the summary statistics. -/
structure VaRResults (α : Type) where
  var_estimates : List (ℚ × α)
  cvar_estimates : List (ℚ × α)
  portfolio_returns : List α
  percentiles : List (ℚ × ℚ)
  statistics : Statistics α
deriving DecidableEq

/-- MonteCarloVaR.calculate_var: simulate the portfolio returns, then for
each configured confidence level record VaR, CVaR and the source
percentile, and attach the summary statistics.  A raised simulation error
propagates; the final generator state is returned alongside. -/
def calculate_var {α S : Type} [LinearOrderedField α] (ops : FloatOps α)
    (gen : S → α × S) (seedFn : ℕ → S)
    (cholFn : List (List α) → List (List α))
    (assets : List (AssetParameters α)) (corr : List (List α))
    (config : SimulationConfig) (process : StochasticProcess) (st : S) :
    Except String (VaRResults α) × S :=
  let pair :=
    simulate_portfolio_returns ops gen seedFn cholFn assets corr config process st
  match pair.1 with
  | .error e => (.error e, pair.2)
  | .ok portfolio_returns =>
    (.ok
      { var_estimates :=
          config.confidence_levels.map (fun cl => (cl, varAt portfolio_returns cl))
        cvar_estimates :=
          config.confidence_levels.map (fun cl => (cl, cvarAt portfolio_returns cl))
        portfolio_returns := portfolio_returns
        percentiles :=
          config.confidence_levels.map (fun cl => (cl, (1 - cl) * 100))
        statistics := statisticsOf ops portfolio_returns config.num_simulations },
      pair.2)

/-- MonteCarloVaR.stress_test.  Python reference semantics make the
source's restore step a no-op on the parameter values: original_assets =
[asset for asset in self.assets] copies the list cells but aliases the
mutable AssetParameters objects themselves; the modification loop then
mutates those shared objects in place (asset.volatility *= ...,
asset.expected_return += ...), and self.assets = [asset for asset in
original_assets] reinstalls the very same mutated objects.  Hence each
scenario runs on the cumulatively modified parameters of all previous
scenarios, and after the call the base model's asset parameter values are
the cumulatively modified ones.  The embedding therefore threads the
modified parameter values through the scenario recursion and returns the
per-scenario results (in insertion order, as the Python dict preserves),
the final parameter values of self.assets, and the final generator
state. -/
def stress_test {α S : Type} [LinearOrderedField α] (ops : FloatOps α)
    (gen : S → α × S) (seedFn : ℕ → S)
    (cholFn : List (List α) → List (List α)) (corr : List (List α))
    (config : SimulationConfig) :
    List (String × Modifications α) → List (AssetParameters α) → S →
      List (String × Except String (VaRResults α)) × List (AssetParameters α) × S
  | [], assets, st => ([], assets, st)
  | (name, mods) :: rest, assets, st =>
    let stressed := assets.map (applyModifications mods)
    let pair := calculate_var ops gen seedFn cholFn stressed corr config
      .geometric_brownian_motion st
    let rec_result :=
      stress_test ops gen seedFn cholFn corr config rest stressed pair.2
    ((name, pair.1) :: rec_result.1, rec_result.2.1, rec_result.2.2)

/-- Trivial float operations over ℚ, used to exercise the generic
pipeline on concrete inputs (they stand in for an arbitrary FloatOps). -/
def ratOps : FloatOps ℚ :=
  ⟨fun x => x, fun x => x, fun x => x⟩

/-- A concrete deterministic generator over state ℕ: the draw is the
current state and the state increments. -/
def natGen (st : ℕ) : ℚ × ℕ :=
  ((st : ℚ), st + 1)

/-- The final asset-parameter values left in the model by stress_test are
the left fold of all scenario modifications over the initial parameters:
the source's restore step does not undo the in-place mutations. -/
theorem stress_test_final_assets {α S : Type} [LinearOrderedField α]
    (ops : FloatOps α) (gen : S → α × S) (seedFn : ℕ → S)
    (cholFn : List (List α) → List (List α)) (corr : List (List α))
    (config : SimulationConfig) :
    ∀ (scenarios : List (String × Modifications α))
      (assets : List (AssetParameters α)) (st : S),
      (stress_test ops gen seedFn cholFn corr config scenarios assets st).2.1 =
        scenarios.foldl (fun as p => as.map (applyModifications p.2)) assets := by
  intro scenarios
  induction scenarios with
  | nil => intro assets st; rfl
  | cons hd tl ih =>
    intro assets st
    obtain ⟨name, mods⟩ := hd
    simp only [stress_test, List.foldl_cons]
    exact ih (assets.map (applyModifications mods)) _

/-- C1: the claim fails on the code — stress_test does not restore asset
parameters.  At the concrete failing input below (one asset with
volatility 1/4, a single scenario that doubles volatility), the model's
asset list after the call carries volatility 1/2, not the original 1/4:
the shallow list copy in the source aliases the mutable asset objects, so
the restore step reinstalls the mutated objects. -/
theorem stress_test_not_restored :
    (stress_test ratOps natGen (fun s => s) (fun m => m) [[1]]
        ⟨1, 1, [19/20], some 0⟩
        [("Market Crash", ⟨some 2, none⟩)]
        [⟨"AAPL", 100, 1/10, 1/4, 1⟩] 0).2.1 =
      [⟨"AAPL", 100, 1/10, 1/2, 1⟩] ∧ ((1 : ℚ)/2) ≠ ((1 : ℚ)/4) := by
  constructor
  · rw [stress_test_final_assets]
    simp only [List.foldl_cons, List.foldl_nil, List.map_cons, List.map_nil,
      applyModifications]
    norm_num
  · norm_num

/-- C2 counterexample: by the claim, a configuration whose simulation
count and horizon are not positive must raise; the code constructs it
without error (only confidence levels are validated). -/
theorem simulationConfig_counterexample :
    SimulationConfig.post_init 0 0 (some [1/2]) none =
      .ok ⟨0, 0, [1/2], none⟩ ∧ ¬(0 < (0 : ℤ)) := by
  constructor
  · unfold SimulationConfig.post_init
    norm_num [List.find?]
  · decide

/-- C2 amended: constructing a SimulationConfig raises if and only if
some confidence level (provided, or the default list when omitted) lies
outside the open interval (0,1); the simulation count and the time
horizon are never inspected by the constructor. -/
theorem simulationConfig_validation (ns th : ℤ) (cls : Option (List ℚ))
    (seed : Option ℕ) :
    (∃ e, SimulationConfig.post_init ns th cls seed = .error e) ↔
      ∃ cl ∈ cls.getD [19/20, 99/100, 999/1000], ¬(0 < cl ∧ cl < 1) := by
  unfold SimulationConfig.post_init
  cases hf : (cls.getD [19/20, 99/100, 999/1000]).find?
      (fun cl => decide (¬(0 < cl ∧ cl < 1))) with
  | none =>
    simp only [hf]
    constructor
    · rintro ⟨e, he⟩; exact absurd he (by simp)
    · rintro ⟨cl, hmem, hcl⟩
      have := List.find?_eq_none.mp hf cl hmem
      simp only [decide_eq_true_eq, not_not] at this
      exact absurd this hcl
  | some cl =>
    simp only [hf]
    constructor
    · intro _
      refine ⟨cl, List.mem_of_find?_eq_some hf, ?_⟩
      have := List.find?_some hf
      simpa only [decide_eq_true_eq] using this
    · intro _; exact ⟨_, rfl⟩

/-- C9: for the jump-diffusion process variant (the only member of the
StochasticProcess enum other than GBM and mean reversion), any model with
at least one asset makes simulate_portfolio_returns raise an explicit
NotImplementedError rather than silently falling back to a default
process. -/
theorem simulate_unsupported_raises {α S : Type} [LinearOrderedField α]
    (ops : FloatOps α) (gen : S → α × S) (seedFn : ℕ → S)
    (cholFn : List (List α) → List (List α))
    (assets : List (AssetParameters α)) (corr : List (List α))
    (config : SimulationConfig) (st : S) (h : assets ≠ []) :
    (simulate_portfolio_returns ops gen seedFn cholFn assets corr config
        .jump_diffusion st).1 =
      .error "Process StochasticProcess.JUMP_DIFFUSION not implemented" := by
  match assets, h with
  | a :: rest, _ => rfl

/-- Witness for C9: the theorem applied at a concrete one-asset model. -/
theorem simulate_unsupported_raises_witness :
    (simulate_portfolio_returns ratOps natGen (fun s => s) (fun m => m)
        [⟨"AAPL", 100, 1/10, 1/4, 1⟩] [[1]] ⟨2, 3, [19/20], some 7⟩
        .jump_diffusion 0).1 =
      .error "Process StochasticProcess.JUMP_DIFFUSION not implemented" :=
  simulate_unsupported_raises ratOps natGen (fun s => s) (fun m => m)
    [⟨"AAPL", 100, 1/10, 1/4, 1⟩] [[1]] ⟨2, 3, [19/20], some 7⟩ 0
    (by decide)

/-- C10: a MonteCarloVaR constructed with assets omitted (None) succeeds
without raising for every supplied correlation matrix and every
eigenvalue check, and the resulting instance has no assets, zero
num_assets and no correlation matrix — no validation is consulted. -/
theorem init_none_unvalidated {α : Type} [LinearOrderedField α]
    (eigvalsOk : List (List α) → Bool)
    (correlation_matrix : Option (List (List α))) :
    MonteCarloVaR.init eigvalsOk none correlation_matrix =
      .ok ⟨none, 0, none⟩ := rfl

/-- C8: when the configuration supplies a random seed, calculate_var is
independent of the ambient generator state — two independent runs with the
identical (config, model) pair produce identical VaRResults (same VaR,
CVaR, percentiles, return samples and statistics), because np.random.seed
replaces the only source of randomness before any draw is taken. -/
theorem calculate_var_deterministic {α S : Type} [LinearOrderedField α]
    (ops : FloatOps α) (gen : S → α × S) (seedFn : ℕ → S)
    (cholFn : List (List α) → List (List α))
    (assets : List (AssetParameters α)) (corr : List (List α))
    (config : SimulationConfig) (process : StochasticProcess)
    (s : ℕ) (hseed : config.random_seed = some s) (st1 st2 : S) :
    calculate_var ops gen seedFn cholFn assets corr config process st1 =
      calculate_var ops gen seedFn cholFn assets corr config process st2 := by
  unfold calculate_var simulate_portfolio_returns
  simp only [hseed]

/-- Witness for C8: the theorem applied with a concrete generator, model
and seeded configuration, from the two prior generator states 0 and 99. -/
theorem calculate_var_deterministic_witness :
    calculate_var ratOps natGen (fun s => s) (fun m => m)
        [⟨"AAPL", 100, 1/10, 1/4, 1⟩] [[1]] ⟨1, 1, [19/20], some 42⟩
        .geometric_brownian_motion 0 =
      calculate_var ratOps natGen (fun s => s) (fun m => m)
        [⟨"AAPL", 100, 1/10, 1/4, 1⟩] [[1]] ⟨1, 1, [19/20], some 42⟩
        .geometric_brownian_motion 99 :=
  calculate_var_deterministic ratOps natGen (fun s => s) (fun m => m)
    [⟨"AAPL", 100, 1/10, 1/4, 1⟩] [[1]] ⟨1, 1, [19/20], some 42⟩
    .geometric_brownian_motion 42 rfl 0 99

/-- C7: for every asset and per-step draw sequence, the GBM simulation of
one path returns exp((μ − σ²/2)·T + σ·W_T) − 1, where W_T is the sum of
the √Δt-scaled draws, Δt = 1/horizon and T = horizon·Δt = 1; and the
result depends on the draws only through their sum (the cumulative
terminal noise), not on the interior path. -/
theorem simulate_gbm_closed_form {α : Type} [LinearOrderedField α]
    (ops : FloatOps α) (asset : AssetParameters α) (draws draws2 : List α)
    (h : ℕ) (hh : 0 < h) (hp : asset.current_price ≠ 0) :
    simulate_gbm ops asset [draws] (1 / (h : α)) h =
      [ops.exp ((asset.expected_return - (1 / 2) * asset.volatility ^ 2) * 1
          + asset.volatility * (draws.map (fun r => r * ops.sqrt (1 / (h : α)))).sum)
        - 1]
    ∧ (draws2.sum = draws.sum →
        simulate_gbm ops asset [draws2] (1 / (h : α)) h =
          simulate_gbm ops asset [draws] (1 / (h : α)) h) := by
  have hα : ((h : α)) ≠ 0 := Nat.cast_ne_zero.mpr (Nat.pos_iff_ne_zero.mp hh)
  have hT : (h : α) * (1 / (h : α)) = 1 := by
    rw [mul_one_div, div_self hα]
  constructor
  · simp only [simulate_gbm, List.map_cons, List.map_nil, List.cons.injEq, and_true]
    rw [hT]
    rw [div_eq_iff hp]
    ring
  · intro hsum
    simp only [simulate_gbm, List.map_cons, List.map_nil, List.cons.injEq, and_true]
    have hs2 : (draws2.map (fun r => r * ops.sqrt (1 / (h : α)))).sum =
        (draws.map (fun r => r * ops.sqrt (1 / (h : α)))).sum := by
      rw [List.sum_map_mul_right, List.sum_map_mul_right]
      simp [hsum]
    rw [hs2]

/-- Witness for C7: the theorem applied at a concrete asset, the draw
lists [1, 2] and [3] (same sum, different interior path) and horizon 2. -/
theorem simulate_gbm_closed_form_witness :
    (simulate_gbm ratOps ⟨"A", 100, 1/10, 1/4, 1⟩ [[1, 2]] (1 / (2 : ℚ)) 2 =
      [ratOps.exp (((1:ℚ)/10 - (1 / 2) * ((1:ℚ)/4) ^ 2) * 1
          + ((1:ℚ)/4) * (([1, 2] : List ℚ).map (fun r => r * ratOps.sqrt (1 / (2 : ℚ)))).sum)
        - 1])
    ∧ (([3] : List ℚ).sum = ([1, 2] : List ℚ).sum →
        simulate_gbm ratOps ⟨"A", 100, 1/10, 1/4, 1⟩ [[3]] (1 / (2 : ℚ)) 2 =
          simulate_gbm ratOps ⟨"A", 100, 1/10, 1/4, 1⟩ [[1, 2]] (1 / (2 : ℚ)) 2) :=
  simulate_gbm_closed_form ratOps ⟨"A", 100, 1/10, 1/4, 1⟩ [1, 2] [3] 2
    (by norm_num) (by norm_num)

/-- Reading a (≤)-sorted list through getD is monotone in the index while
the larger index stays in range (the default is then irrelevant). -/
theorem sorted_getD_mono {α : Type} [LinearOrderedField α] {s : List α}
    (hs : s.Sorted (fun a b => a ≤ b)) {i j : ℕ} (hij : i ≤ j)
    (hj : j < s.length) (d1 d2 : α) :
    s.getD i d1 ≤ s.getD j d2 := by
  have hi : i < s.length := lt_of_le_of_lt hij hj
  rw [List.getD_eq_getElem s d1 hi, List.getD_eq_getElem s d2 hj]
  have hab : (⟨i, hi⟩ : Fin s.length) ≤ ⟨j, hj⟩ := Fin.mk_le_mk.mpr hij
  have h := hs.rel_get_of_le hab
  simpa using h

/-- In a sorted list the element after position lo (as np.percentile reads
it, with the element at lo as the out-of-range default) is at least the
element at lo. -/
theorem getD_succ_ge {α : Type} [LinearOrderedField α] {s : List α}
    (hs : s.Sorted (fun a b => a ≤ b)) {lo : ℕ} (hlo : lo < s.length) :
    s.getD lo 0 ≤ s.getD (lo + 1) (s.getD lo 0) := by
  by_cases h : lo + 1 < s.length
  · exact sorted_getD_mono hs (Nat.le_succ lo) h 0 _
  · exact le_of_eq (List.getD_eq_default s (s.getD lo 0) (by omega)).symm

/-- Monotonicity of the np.percentile interpolation kernel: on a sorted
nonempty sample, the linearly interpolated value is monotone in the
virtual index over [0, n−1]. -/
theorem interpAt_mono {α : Type} [LinearOrderedField α] {s : List α}
    (hs : s.Sorted (fun a b => a ≤ b)) (hne : s ≠ []) {pos1 pos2 : ℚ}
    (hp0 : 0 ≤ pos1) (hp12 : pos1 ≤ pos2)
    (hp2 : pos2 ≤ ((s.length - 1 : ℕ) : ℚ)) :
    interpAt s pos1 ≤ interpAt s pos2 := by
  have hn : 1 ≤ s.length := List.length_pos.mpr hne
  have hfl12 : Int.floor pos1 ≤ Int.floor pos2 := Int.floor_le_floor hp12
  have hfl0 : (0 : ℤ) ≤ Int.floor pos1 := Int.le_floor.mpr (by exact_mod_cast hp0)
  have hfl0' : (0 : ℤ) ≤ Int.floor pos2 := le_trans hfl0 hfl12
  have hub : Int.floor pos2 ≤ ((s.length - 1 : ℕ) : ℤ) := by
    calc Int.floor pos2 ≤ Int.floor (((s.length - 1 : ℕ) : ℚ)) := Int.floor_le_floor hp2
    _ = ((s.length - 1 : ℕ) : ℤ) := Int.floor_natCast _
  have hlo1z : ((Int.floor pos1).toNat : ℤ) = Int.floor pos1 := Int.toNat_of_nonneg hfl0
  have hlo2z : ((Int.floor pos2).toNat : ℤ) = Int.floor pos2 := Int.toNat_of_nonneg hfl0'
  have hlo12 : (Int.floor pos1).toNat ≤ (Int.floor pos2).toNat := by omega
  have hlo2n : (Int.floor pos2).toNat < s.length := by omega
  have hlo1n : (Int.floor pos1).toNat < s.length := lt_of_le_of_lt hlo12 hlo2n
  have hf1_nonneg : (0 : ℚ) ≤ pos1 - Int.floor pos1 := sub_nonneg.mpr (Int.floor_le pos1)
  have hf2_nonneg : (0 : ℚ) ≤ pos2 - Int.floor pos2 := sub_nonneg.mpr (Int.floor_le pos2)
  have hf1_le_one : pos1 - Int.floor pos1 ≤ 1 := by
    have := Int.lt_floor_add_one pos1
    push_cast at this ⊢
    linarith
  simp only [interpAt]
  rcases eq_or_lt_of_le hfl12 with heq | hlt
  · -- same floor: same base element, monotone in the fractional part
    rw [← heq]
    have hd : (0 : α) ≤ s.getD ((Int.floor pos1).toNat + 1)
        (s.getD (Int.floor pos1).toNat 0) - s.getD (Int.floor pos1).toNat 0 :=
      sub_nonneg.mpr (getD_succ_ge hs hlo1n)
    have hf12 : ((pos1 - Int.floor pos1 : ℚ) : α) ≤ ((pos2 - Int.floor pos1 : ℚ) : α) :=
      Rat.cast_le.mpr (by linarith)
    have := mul_le_mul_of_nonneg_right hf12 hd
    rw [heq] at this ⊢
    linarith
  · -- strictly larger floor: chain through the interval endpoints
    have hlo12' : (Int.floor pos1).toNat + 1 ≤ (Int.floor pos2).toNat := by omega
    have hd1 : (0 : α) ≤ s.getD ((Int.floor pos1).toNat + 1)
        (s.getD (Int.floor pos1).toNat 0) - s.getD (Int.floor pos1).toNat 0 :=
      sub_nonneg.mpr (getD_succ_ge hs hlo1n)
    have hd2 : (0 : α) ≤ s.getD ((Int.floor pos2).toNat + 1)
        (s.getD (Int.floor pos2).toNat 0) - s.getD (Int.floor pos2).toNat 0 :=
      sub_nonneg.mpr (getD_succ_ge hs hlo2n)
    have hstep1 : s.getD (Int.floor pos1).toNat 0
        + ((pos1 - Int.floor pos1 : ℚ) : α) * (s.getD ((Int.floor pos1).toNat + 1)
            (s.getD (Int.floor pos1).toNat 0) - s.getD (Int.floor pos1).toNat 0)
        ≤ s.getD ((Int.floor pos1).toNat + 1) (s.getD (Int.floor pos1).toNat 0) := by
      have hle1 : ((pos1 - Int.floor pos1 : ℚ) : α) ≤ 1 := by
        have h1c : ((pos1 - Int.floor pos1 : ℚ) : α) ≤ ((1 : ℚ) : α) :=
          Rat.cast_le.mpr hf1_le_one
        simpa using h1c
      have := mul_le_mul_of_nonneg_right hle1 hd1
      rw [one_mul] at this
      linarith
    have hstep2 : s.getD ((Int.floor pos1).toNat + 1) (s.getD (Int.floor pos1).toNat 0)
        ≤ s.getD (Int.floor pos2).toNat 0 :=
      sorted_getD_mono hs hlo12' hlo2n _ _
    have hstep3 : s.getD (Int.floor pos2).toNat 0
        ≤ s.getD (Int.floor pos2).toNat 0
          + ((pos2 - Int.floor pos2 : ℚ) : α) * (s.getD ((Int.floor pos2).toNat + 1)
              (s.getD (Int.floor pos2).toNat 0) - s.getD (Int.floor pos2).toNat 0) := by
      have hc : (0 : α) ≤ ((pos2 - Int.floor pos2 : ℚ) : α) := by
        exact_mod_cast hf2_nonneg
      have := mul_nonneg hc hd2
      linarith
    linarith

/-- np.percentile with linear interpolation is monotone in q on a
nonempty sample for q in [0, 100]. -/
theorem npPercentile_mono {α : Type} [LinearOrderedField α] (data : List α)
    (hne : data ≠ []) {q1 q2 : ℚ} (h0 : 0 ≤ q1) (h12 : q1 ≤ q2)
    (h2 : q2 ≤ 100) :
    npPercentile data q1 ≤ npPercentile data q2 := by
  unfold npPercentile
  have hlen : (data.mergeSort).length = data.length := List.length_mergeSort data
  have hsne : data.mergeSort ≠ [] := by
    intro h
    apply hne
    have : data.length = 0 := by rw [← hlen, h]; rfl
    exact List.length_eq_zero.mp this
  have hcast : (0 : ℚ) ≤ ((data.length - 1 : ℕ) : ℚ) := Nat.cast_nonneg _
  apply interpAt_mono (List.sorted_mergeSort' data) hsne
  · exact mul_nonneg (by linarith) hcast
  · exact mul_le_mul_of_nonneg_right (by linarith) hcast
  · rw [hlen]
    calc (q2 / 100) * ((data.length - 1 : ℕ) : ℚ)
        ≤ 1 * ((data.length - 1 : ℕ) : ℚ) :=
          mul_le_mul_of_nonneg_right (by linarith) hcast
    _ = ((data.length - 1 : ℕ) : ℚ) := one_mul _

/-- C4: on every nonempty simulated return sample, the VaR of
calculate_var — the negated (1−c)·100-th percentile of the sample — is
monotonically non-decreasing in the confidence level: for c1 ≤ c2 in
(0,1), VaR(c1) ≤ VaR(c2). -/
theorem var_monotone {α : Type} [LinearOrderedField α] (data : List α)
    (hne : data ≠ []) (c1 c2 : ℚ) (h0 : 0 < c1) (h12 : c1 ≤ c2)
    (h1 : c2 < 1) :
    varAt data c1 ≤ varAt data c2 := by
  unfold varAt
  have key : npPercentile data ((1 - c2) * 100) ≤
      npPercentile data ((1 - c1) * 100) :=
    npPercentile_mono data hne (by linarith) (by linarith) (by linarith)
  linarith

/-- Witness for C4: the theorem applied to the sample [5, 1, 3] at the
confidence levels 1/2 and 3/4. -/
theorem var_monotone_witness :
    varAt ([5, 1, 3] : List ℚ) (1/2) ≤ varAt ([5, 1, 3] : List ℚ) (3/4) :=
  var_monotone ([5, 1, 3] : List ℚ) (by simp) (1/2) (3/4)
    (by norm_num) (by norm_num) (by norm_num)

/-- C5: for every simulated return sample and confidence level, the CVaR
of calculate_var equals the negated mean of the returns at or below −VaR
when that tail is nonempty, equals the VaR value when the tail is empty,
and in either case satisfies CVaR ≥ VaR in loss magnitude. -/
theorem cvar_spec {α : Type} [LinearOrderedField α] (data : List α) (c : ℚ) :
    (data.filter (fun r => decide (r ≤ -(varAt data c))) = [] →
        cvarAt data c = varAt data c)
    ∧ (data.filter (fun r => decide (r ≤ -(varAt data c))) ≠ [] →
        cvarAt data c =
          -(npMean (data.filter (fun r => decide (r ≤ -(varAt data c))))))
    ∧ varAt data c ≤ cvarAt data c := by
  simp only [cvarAt]
  by_cases hne : data.filter (fun r => decide (r ≤ -(varAt data c))) = []
  · simp [hne]
  · have hlen : 0 < (data.filter (fun r => decide (r ≤ -(varAt data c)))).length :=
      List.length_pos.mpr hne
    have hmem : ∀ x ∈ data.filter (fun r => decide (r ≤ -(varAt data c))),
        x ≤ -(varAt data c) := by
      intro x hx
      exact of_decide_eq_true (List.mem_filter.mp hx).2
    have hsum : (data.filter (fun r => decide (r ≤ -(varAt data c)))).sum ≤
        (data.filter (fun r => decide (r ≤ -(varAt data c)))).length •
          (-(varAt data c)) :=
      List.sum_le_card_nsmul _ _ hmem
    have hlenα : (0 : α) <
        ((data.filter (fun r => decide (r ≤ -(varAt data c)))).length : α) := by
      exact_mod_cast hlen
    have hmean : npMean (data.filter (fun r => decide (r ≤ -(varAt data c)))) ≤
        -(varAt data c) := by
      unfold npMean
      rw [div_le_iff₀ hlenα]
      rw [nsmul_eq_mul] at hsum
      linarith [hsum]
    refine ⟨fun h => absurd h hne, fun _ => if_pos hlen, ?_⟩
    rw [if_pos hlen]
    linarith [hmean]

/-- Witness for C5: the theorem applied to the sample [1, −2] at
confidence level 1/2. -/
theorem cvar_spec_witness :
    (([1, -2] : List ℚ).filter
        (fun r => decide (r ≤ -(varAt ([1, -2] : List ℚ) (1/2)))) = [] →
        cvarAt ([1, -2] : List ℚ) (1/2) = varAt ([1, -2] : List ℚ) (1/2))
    ∧ (([1, -2] : List ℚ).filter
        (fun r => decide (r ≤ -(varAt ([1, -2] : List ℚ) (1/2)))) ≠ [] →
        cvarAt ([1, -2] : List ℚ) (1/2) =
          -(npMean (([1, -2] : List ℚ).filter
            (fun r => decide (r ≤ -(varAt ([1, -2] : List ℚ) (1/2)))))))
    ∧ varAt ([1, -2] : List ℚ) (1/2) ≤ cvarAt ([1, -2] : List ℚ) (1/2) :=
  cvar_spec ([1, -2] : List ℚ) (1/2)

/-- A constant list is sorted. -/
theorem sorted_replicate {α : Type} [LinearOrderedField α] (n : ℕ) (v : α) :
    (List.replicate n v).Sorted (fun a b => a ≤ b) := by
  induction n with
  | zero => exact List.sorted_nil
  | succ n ih =>
    rw [List.replicate_succ]
    exact List.Pairwise.cons
      (fun b hb => le_of_eq (List.eq_of_mem_replicate hb).symm) ih

/-- np.percentile of a constant sample is that constant, for every
q ∈ [0, 100] and nonempty sample. -/
theorem npPercentile_replicate {α : Type} [LinearOrderedField α] (n : ℕ)
    (hn : 0 < n) (v : α) {q : ℚ} (h0 : 0 ≤ q) (h1 : q ≤ 100) :
    npPercentile (List.replicate n v) q = v := by
  simp only [npPercentile]
  rw [List.mergeSort_eq_self (sorted_replicate n v)]
  simp only [interpAt, List.length_replicate]
  have hpos0 : (0 : ℚ) ≤ q / 100 * ((n - 1 : ℕ) : ℚ) :=
    mul_nonneg (by linarith) (Nat.cast_nonneg _)
  have hposub : q / 100 * ((n - 1 : ℕ) : ℚ) ≤ ((n - 1 : ℕ) : ℚ) := by
    calc q / 100 * ((n - 1 : ℕ) : ℚ) ≤ 1 * ((n - 1 : ℕ) : ℚ) :=
      mul_le_mul_of_nonneg_right (by linarith) (Nat.cast_nonneg _)
    _ = ((n - 1 : ℕ) : ℚ) := one_mul _
  have hfl0 : (0 : ℤ) ≤ Int.floor (q / 100 * ((n - 1 : ℕ) : ℚ)) :=
    Int.le_floor.mpr (by exact_mod_cast hpos0)
  have hflub : Int.floor (q / 100 * ((n - 1 : ℕ) : ℚ)) ≤ ((n - 1 : ℕ) : ℤ) := by
    calc Int.floor (q / 100 * ((n - 1 : ℕ) : ℚ))
        ≤ Int.floor (((n - 1 : ℕ) : ℚ)) := Int.floor_le_floor hposub
    _ = ((n - 1 : ℕ) : ℤ) := Int.floor_natCast _
  have hlo : (Int.floor (q / 100 * ((n - 1 : ℕ) : ℚ))).toNat < n := by omega
  have ha : (List.replicate n v).getD
      (Int.floor (q / 100 * ((n - 1 : ℕ) : ℚ))).toNat 0 = v := by
    rw [List.getD_eq_getElem _ _ (by rw [List.length_replicate]; exact hlo)]
    simp
  have hb : (List.replicate n v).getD
      ((Int.floor (q / 100 * ((n - 1 : ℕ) : ℚ))).toNat + 1)
      ((List.replicate n v).getD
        (Int.floor (q / 100 * ((n - 1 : ℕ) : ℚ))).toNat 0) = v := by
    by_cases hlt : (Int.floor (q / 100 * ((n - 1 : ℕ) : ℚ))).toNat + 1 < n
    · rw [List.getD_eq_getElem _ _ (by rw [List.length_replicate]; exact hlt)]
      simp
    · rw [List.getD_eq_default _ _ (by rw [List.length_replicate]; omega), ha]
  rw [hb, ha]
  simp

/-- varAt of a constant sample is the negated constant. -/
theorem varAt_replicate {α : Type} [LinearOrderedField α] (n : ℕ) (hn : 0 < n)
    (v : α) {c : ℚ} (h0 : 0 < c) (h1 : c < 1) :
    varAt (List.replicate n v) c = -v := by
  unfold varAt
  rw [npPercentile_replicate n hn v (by linarith) (by linarith)]

/-- np.mean of a constant nonempty sample is that constant. -/
theorem npMean_replicate {α : Type} [LinearOrderedField α] (n : ℕ)
    (hn : 0 < n) (v : α) :
    npMean (List.replicate n v) = v := by
  unfold npMean
  rw [List.sum_replicate, List.length_replicate, nsmul_eq_mul]
  exact mul_div_cancel_left₀ v
    (Nat.cast_ne_zero.mpr (Nat.pos_iff_ne_zero.mp hn))

/-- cvarAt of a constant sample is the negated constant: the whole sample
is the tail and its mean is the constant. -/
theorem cvarAt_replicate {α : Type} [LinearOrderedField α] (n : ℕ)
    (hn : 0 < n) (v : α) {c : ℚ} (h0 : 0 < c) (h1 : c < 1) :
    cvarAt (List.replicate n v) c = -v := by
  simp only [cvarAt]
  rw [varAt_replicate n hn v h0 h1]
  have htail : (List.replicate n v).filter (fun r => decide (r ≤ -(-v))) =
      List.replicate n v := by
    apply List.filter_eq_self.mpr
    intro b hb
    rw [List.eq_of_mem_replicate hb]
    simp
  rw [htail, List.length_replicate, if_pos hn, npMean_replicate n hn v]

/-- zipWith over two constant lists of the same length. -/
theorem zipWith_replicate_replicate {α β γ : Type} (f : α → β → γ) (n : ℕ)
    (a : α) (b : β) :
    List.zipWith f (List.replicate n a) (List.replicate n b) =
      List.replicate n (f a b) := by
  induction n with
  | zero => rfl
  | succ n ih => simp [List.replicate_succ, ih]

/-- With zero volatility the GBM path returns collapse: every path yields
exp(μ·(horizon·dt)) − 1 = exp(μ) − 1 (dt = 1/horizon), independently of
the draws. -/
theorem simulate_gbm_zero_vol {α : Type} [LinearOrderedField α]
    (ops : FloatOps α) (a : AssetParameters α) (hσ : a.volatility = 0)
    (hp : a.current_price ≠ 0) (rows : List (List α)) (th : ℤ)
    (hh : 0 < th) :
    simulate_gbm ops a rows (1 / (th : α)) th.toNat =
      List.replicate rows.length (ops.exp a.expected_return - 1) := by
  have hx : ((th : ℤ) : α) ≠ 0 := by
    have h1 : (th : ℤ) ≠ 0 := by omega
    exact_mod_cast h1
  have hcast : ((th.toNat : ℕ) : α) = ((th : ℤ) : α) := by
    have h2 : ((th.toNat : ℕ) : ℤ) = th := Int.toNat_of_nonneg (le_of_lt hh)
    exact_mod_cast congrArg (fun z : ℤ => (z : α)) h2
  have hdt : ((th.toNat : ℕ) : α) * (1 / (th : α)) = 1 := by
    rw [hcast, mul_one_div, div_self hx]
  unfold simulate_gbm
  rw [← List.map_const']
  apply List.map_congr_left
  intro path hpath
  rw [hσ, hdt]
  simp only [ne_eq, zero_pow, mul_zero, sub_zero, zero_mul, add_zero, mul_one]
  rw [div_eq_iff hp]
  ring_nf

/-- For a single-asset model with weight 1 and zero volatility, the whole
simulated portfolio-return sample is the constant exp(μ) − 1 repeated
num_simulations times, for every generator, seed function and correlation
transform. -/
theorem simulate_portfolio_zero_vol {α S : Type} [LinearOrderedField α]
    (ops : FloatOps α) (gen : S → α × S) (seedFn : ℕ → S)
    (cholFn : List (List α) → List (List α)) (corr : List (List α))
    (a : AssetParameters α) (hσ : a.volatility = 0) (hw : a.weight = 1)
    (hp : a.current_price ≠ 0) (cfg : SimulationConfig)
    (hh : 0 < cfg.time_horizon) (st : S) :
    (simulate_portfolio_returns ops gen seedFn cholFn [a] corr cfg
        .geometric_brownian_motion st).1 =
      .ok (List.replicate cfg.num_simulations.toNat
        (ops.exp a.expected_return - 1)) := by
  simp only [simulate_portfolio_returns, generate_correlated_randoms,
    portfolio_loop, correlate, List.length_cons, List.length_nil, zero_add,
    List.range_succ, List.range_zero, List.nil_append, List.map_cons,
    List.map_nil, List.getD_cons_zero]
  rw [simulate_gbm_zero_vol ops a hσ hp _ cfg.time_horizon hh,
    List.length_map, List.length_range, zipWith_replicate_replicate]
  simp [hw]

/-- C3 counterexample: at the concrete input with one asset of weight 1,
volatility 0 and expected return μ = 1 (horizon 1, one path), the
simulated portfolio return sample is [exp(1) − 1] and exp(1) − 1 ≠ 0,
refuting the claim that with zero volatility every simulated path yields
portfolio return exactly 0 (and with it the claimed deterministic VaR
value −μ·(T/horizon)). -/
theorem zero_vol_counterexample :
    (simulate_portfolio_returns ⟨Real.exp, Real.log, Real.sqrt⟩
        (fun u : Unit => ((0 : ℝ), u)) (fun _ => (() : Unit)) (fun m => m)
        [⟨"A", 100, 1, 0, 1⟩] [[1]] ⟨1, 1, [19/20], some 0⟩
        .geometric_brownian_motion ()).1 =
      .ok (List.replicate 1 (Real.exp 1 - 1))
    ∧ Real.exp 1 - 1 ≠ 0 := by
  constructor
  · exact simulate_portfolio_zero_vol ⟨Real.exp, Real.log, Real.sqrt⟩
      (fun u : Unit => ((0 : ℝ), u)) (fun _ => (() : Unit)) (fun m => m) [[1]]
      ⟨"A", 100, 1, 0, 1⟩ rfl rfl (by norm_num) ⟨1, 1, [19/20], some 0⟩
      (by norm_num) ()
  · intro hcon
    have h9 := Real.exp_one_gt_d9
    have hexp : Real.exp 1 = 1 := by linarith
    rw [hexp] at h9
    norm_num at h9

/-- C3 amended: for a single-asset portfolio with weight 1.0 and
volatility 0, every simulated GBM path yields portfolio return exactly
exp(μ) − 1 (deterministically, independent of the draws; the exponent is
μ·T with T = horizon·Δt = 1), and VaR and CVaR at every confidence level
in (0,1) equal −(exp(μ) − 1), which is 0 when μ = 0. -/
theorem zero_vol_amended {S : Type} (gen : S → ℝ × S) (seedFn : ℕ → S)
    (cholFn : List (List ℝ) → List (List ℝ)) (corr : List (List ℝ))
    (a : AssetParameters ℝ) (hσ : a.volatility = 0) (hw : a.weight = 1)
    (hp : a.current_price ≠ 0) (cfg : SimulationConfig)
    (hh : 0 < cfg.time_horizon) (hs : 0 < cfg.num_simulations) (st : S) :
    (simulate_portfolio_returns ⟨Real.exp, Real.log, Real.sqrt⟩ gen seedFn
        cholFn [a] corr cfg .geometric_brownian_motion st).1 =
      .ok (List.replicate cfg.num_simulations.toNat
        (Real.exp a.expected_return - 1))
    ∧ (∀ cl ∈ cfg.confidence_levels, 0 < cl → cl < 1 →
        varAt (List.replicate cfg.num_simulations.toNat
            (Real.exp a.expected_return - 1)) cl
          = -(Real.exp a.expected_return - 1)
        ∧ cvarAt (List.replicate cfg.num_simulations.toNat
            (Real.exp a.expected_return - 1)) cl
          = -(Real.exp a.expected_return - 1))
    ∧ (a.expected_return = 0 → Real.exp a.expected_return - 1 = 0) := by
  refine ⟨simulate_portfolio_zero_vol ⟨Real.exp, Real.log, Real.sqrt⟩ gen
    seedFn cholFn corr a hσ hw hp cfg hh st, ?_, ?_⟩
  · intro cl _ h0 h1
    have hn : 0 < cfg.num_simulations.toNat := by omega
    exact ⟨varAt_replicate _ hn _ h0 h1, cvarAt_replicate _ hn _ h0 h1⟩
  · intro hμ
    rw [hμ, Real.exp_zero]
    norm_num

/-- Witness for C3 amended: the theorem applied at a concrete one-asset
zero-volatility model with μ = 1, horizon 3 and two simulated paths. -/
theorem zero_vol_amended_witness :
    (simulate_portfolio_returns ⟨Real.exp, Real.log, Real.sqrt⟩
        (fun u : Unit => ((0 : ℝ), u)) (fun _ => (() : Unit)) (fun m => m)
        [⟨"A", 100, 1, 0, 1⟩] [[1]] ⟨2, 3, [19/20], none⟩
        .geometric_brownian_motion ()).1 =
      .ok (List.replicate 2 (Real.exp 1 - 1))
    ∧ (∀ cl ∈ ([19/20] : List ℚ), 0 < cl → cl < 1 →
        varAt (List.replicate 2 (Real.exp 1 - 1)) cl = -(Real.exp 1 - 1)
        ∧ cvarAt (List.replicate 2 (Real.exp 1 - 1)) cl = -(Real.exp 1 - 1))
    ∧ ((1 : ℝ) = 0 → Real.exp (1 : ℝ) - 1 = 0) :=
  zero_vol_amended (fun u : Unit => ((0 : ℝ), u)) (fun _ => (() : Unit))
    (fun m => m) [[1]] ⟨"A", 100, 1, 0, 1⟩ rfl rfl (by norm_num)
    ⟨2, 3, [19/20], none⟩ (by norm_num) (by norm_num) ()

end RiskPlatform
